import Mathlib

/-!
# Verification of the df-afl Redis fuzzer against its specification

Shallow embedding of `src/redis_fuzzer.py` (and the parts of
`src/redis_commands.py` it uses).  Python byte strings are modelled as
`List Nat` (one entry per byte), Python text strings as Lean `String`
(one `Char` per code point, as in Python 3), Python floats drawn from
`random.random()` as rationals in `[0,1)`, and every call to the global
`random` module as an explicit oracle argument, so each function is a
pure function of its inputs and its random draws.
-/

namespace DfAfl

/-- The CRLF terminator used throughout the RESP codec. -/
def crlf : String := "\r\n"

/-- A Python runtime value as it appears in the fuzzer's codec:
text (`str`), `int`, `list`, `None`, the `{"error": ...}` dictionaries
built by the decoder, and any other scalar represented by the text that
`str()` would produce for it (only its `f"+{data}"` image is ever
observable in `encode_resp`). -/
inductive PyObj where
  | pstr : String → PyObj
  | pint : Int → PyObj
  | plist : List PyObj → PyObj
  | pnone : PyObj
  | perr : String → PyObj
  | pother : String → PyObj
deriving Repr

/-- Python `str()` of the dictionary `{"error": e}` as interpolated by an
f-string (only reachable from the dead `else` arm of `encode_resp`). -/
def pyDictStr (e : String) : String := "\x7b'error': '" ++ e ++ "'\x7d"

mutual
/-- Embedding of `encode_resp` (src/redis_fuzzer.py:52-66).  The
`isinstance` chain becomes a match on the value's constructor; the
`for item in data: resp += encode_resp(item)` loop becomes
`encodeList`.  Note the source computes `len(data)` of a `str`, which
in Python 3 is the number of code points, i.e. `String.length`. -/
def encode_resp : PyObj → String
  | .pstr s => "$" ++ toString s.length ++ crlf ++ s ++ crlf
  | .pint n => ":" ++ toString n ++ crlf
  | .plist l => "*" ++ toString l.length ++ crlf ++ encodeList l
  | .pnone => "$-1" ++ crlf
  | .perr e => "+" ++ pyDictStr e ++ crlf
  | .pother s => "+" ++ s ++ crlf

/-- The accumulation loop of the `list` branch of `encode_resp`. -/
def encodeList : List PyObj → String
  | [] => ""
  | x :: xs => encode_resp x ++ encodeList xs
end

/-- A Python primitive as compared by `==` in the decoder's dispatch:
`data[0]` (an `int`, because indexing a `bytes` yields an `int` in
Python 3) against one-byte `bytes` literals such as `b"+"`. -/
inductive PyPrim where
  | int : Nat → PyPrim
  | bytes : List Nat → PyPrim

/-- Python `==` on these primitives: values of distinct builtin types
(`int` vs `bytes`) always compare unequal in Python 3. -/
def pyEq : PyPrim → PyPrim → Bool
  | .int a, .int b => a == b
  | .bytes a, .bytes b => a == b
  | .int _, .bytes _ => false
  | .bytes _, .int _ => false

/-- UTF-8 encoding of one code point. -/
def utf8EncodeChar (n : Nat) : List Nat :=
  if n < 0x80 then [n]
  else if n < 0x800 then [0xC0 + n / 0x40, 0x80 + n % 0x40]
  else if n < 0x10000 then
    [0xE0 + n / 0x1000, 0x80 + (n / 0x40) % 0x40, 0x80 + n % 0x40]
  else
    [0xF0 + n / 0x40000, 0x80 + (n / 0x1000) % 0x40,
     0x80 + (n / 0x40) % 0x40, 0x80 + n % 0x40]

/-- `s.encode("utf-8")`: the byte sequence a Python `str` becomes on the
wire (used by `sendall(resp_command.encode("utf-8"))`). -/
def utf8Encode (s : String) : List Nat :=
  (s.data.map (fun c => utf8EncodeChar c.toNat)).flatten

/-- Is `n` a Unicode scalar value (encodable code point)? -/
def isScalarValue (n : Nat) : Bool :=
  n < 0xD800 || (0xE000 ≤ n && n < 0x110000)

/-- Fuel-driven worker for `bytes.decode("utf-8", errors="ignore")`:
well-formed sequences become their code point, invalid or truncated
bytes are dropped.  The fuel is an upper bound on the number of bytes
still to be consumed, so the top-level wrapper passes the length. -/
def utf8DecodeIgnoreAux : Nat → List Nat → List Char
  | 0, _ => []
  | _, [] => []
  | fuel + 1, b :: rest =>
    if b < 0x80 then Char.ofNat b :: utf8DecodeIgnoreAux fuel rest
    else if 0xC2 ≤ b && b ≤ 0xDF then
      match rest with
      | b2 :: rest2 =>
        if 0x80 ≤ b2 && b2 ≤ 0xBF then
          Char.ofNat ((b - 0xC0) * 0x40 + (b2 - 0x80)) :: utf8DecodeIgnoreAux fuel rest2
        else utf8DecodeIgnoreAux fuel rest
      | [] => []
    else if 0xE0 ≤ b && b ≤ 0xEF then
      match rest with
      | b2 :: b3 :: rest3 =>
        if (0x80 ≤ b2 && b2 ≤ 0xBF) && (0x80 ≤ b3 && b3 ≤ 0xBF)
            && isScalarValue ((b - 0xE0) * 0x1000 + (b2 - 0x80) * 0x40 + (b3 - 0x80)) then
          Char.ofNat ((b - 0xE0) * 0x1000 + (b2 - 0x80) * 0x40 + (b3 - 0x80))
            :: utf8DecodeIgnoreAux fuel rest3
        else utf8DecodeIgnoreAux fuel rest
      | _ => []
    else if 0xF0 ≤ b && b ≤ 0xF4 then
      match rest with
      | b2 :: b3 :: b4 :: rest4 =>
        if (0x80 ≤ b2 && b2 ≤ 0xBF) && (0x80 ≤ b3 && b3 ≤ 0xBF) && (0x80 ≤ b4 && b4 ≤ 0xBF)
            && isScalarValue ((b - 0xF0) * 0x40000 + (b2 - 0x80) * 0x1000
                + (b3 - 0x80) * 0x40 + (b4 - 0x80)) then
          Char.ofNat ((b - 0xF0) * 0x40000 + (b2 - 0x80) * 0x1000
                + (b3 - 0x80) * 0x40 + (b4 - 0x80))
            :: utf8DecodeIgnoreAux fuel rest4
        else utf8DecodeIgnoreAux fuel rest
      | _ => []
    else utf8DecodeIgnoreAux fuel rest

/-- `data.decode("utf-8", errors="ignore")` on a byte string. -/
def utf8DecodeIgnore (bs : List Nat) : String :=
  String.mk (utf8DecodeIgnoreAux bs.length bs)

/-- A Python exception escaping a function (`ValueError` from `int()`,
`IndexError` from indexing, ...), carried as its class name. -/
structure PyExn where
  name : String
deriving Repr, DecidableEq

/-- Generic splitter: Python `bytes.split(sep)` for a one-element
separator, also reused for `str.split` on a single character.  Keeps
empty pieces, and splitting an empty sequence yields one empty piece. -/
def pySplitList [BEq α] (sep : α) : List α → List (List α)
  | [] => [[]]
  | b :: rest =>
    let r := pySplitList sep rest
    if b == sep then [] :: r
    else (b :: r.headD []) :: r.tail

/-- Does `l` start with `pre`? -/
def bytesStartWith : List Nat → List Nat → Bool
  | _, [] => true
  | [], _ :: _ => false
  | a :: as, b :: bs => a == b && bytesStartWith as bs

/-- `data.split(b"\r\n")`: splitter on the two-byte CRLF separator
(the only multi-byte separator the source ever splits on). -/
def pySplitSeq : List Nat → List (List Nat)
  | [] => [[]]
  | b :: rest =>
    if bytesStartWith (b :: rest) [13, 10] then
      [] :: pySplitSeq (rest.drop 1)
    else
      let r := pySplitSeq rest
      (b :: r.headD []) :: r.tail
termination_by l => l.length
decreasing_by
  · simp only [List.length_cons, List.length_drop]
    omega
  · simp

/-- `sep.join(parts)` on byte strings (`b"\r\n".join(parts)`). -/
def pyJoinSeq (sep : List Nat) : List (List Nat) → List Nat
  | [] => []
  | [p] => p
  | p :: q :: rest => p ++ sep ++ pyJoinSeq sep (q :: rest)

/-- Adjust a (possibly negative) Python slice bound against a length. -/
def pySliceAdj (len : Nat) (i : Int) : Nat :=
  if i < 0 then (max (Int.ofNat len + i) 0).toNat
  else min i.toNat len

/-- Python slicing `l[a:b]` with full negative-index semantics. -/
def pySlice (l : List Nat) (a b : Int) : List Nat :=
  (l.take (pySliceAdj l.length b)).drop (pySliceAdj l.length a)

/-- Python indexing `l[i]` — negative indices count from the end,
out-of-range raises `IndexError`. -/
def pyIndex (l : List Nat) (i : Int) : Except PyExn Nat :=
  if 0 ≤ i ∧ i < l.length then .ok (l.getD i.toNat 0)
  else if -(l.length : Int) ≤ i ∧ i < 0 then .ok (l.getD (l.length - (-i).toNat) 0)
  else .error ⟨"IndexError"⟩

/-- `bytes.find(sub, start)`: smallest index `≥ start` (after Python's
negative-start adjustment) where `sub` occurs, else `-1`. -/
def pyFind (l : List Nat) (sub : List Nat) (start : Int) : Int :=
  let s := pySliceAdj l.length start
  match (List.range (l.length + 1)).find? (fun i => s ≤ i && bytesStartWith (l.drop i) sub) with
  | some i => (i : Int)
  | none => -1

/-- Is `b` an ASCII whitespace byte (as stripped by `int(bytes)`)? -/
def isAsciiWs (b : Nat) : Bool :=
  b == 32 || b == 9 || b == 10 || b == 13 || b == 11 || b == 12

/-- `int(b"...")`: strip whitespace, allow one sign, then require a
non-empty run of decimal digits; anything else raises `ValueError`. -/
def pyIntOfBytes (bs : List Nat) : Except PyExn Int :=
  let core := (bs.dropWhile isAsciiWs).reverse.dropWhile isAsciiWs |>.reverse
  let (sign, digits) :=
    match core with
    | 43 :: rest => ((1 : Int), rest)
    | 45 :: rest => ((-1 : Int), rest)
    | _ => ((1 : Int), core)
  if digits ≠ [] ∧ digits.all (fun b => 48 ≤ b && b ≤ 57) then
    .ok (sign * (digits.foldl (fun acc b => acc * 10 + (b - 48)) 0 : Nat))
  else .error ⟨"ValueError"⟩

/-- The byte string `b"\r\n"`. -/
def crlfB : List Nat := [13, 10]

/-- The loop body of the `*` (array) branch of `decode_resp`
(src/redis_fuzzer.py:96-133): `for _ in range(length)` over a byte
cursor `pos`, appending decoded elements and breaking on exhaustion or
an unknown type byte.  Inside this loop the source compares
`part_data[pos]` with `ord(b"$")` etc., an `int`-to-`int` comparison,
so here the dispatch is a genuine one. -/
def decodeArrayLoop (partData : List Nat) : Nat → Int → List PyObj → Except PyExn (List PyObj)
  | 0, _, acc => .ok acc.reverse
  | fuel + 1, pos, acc =>
    if pos ≥ (partData.length : Int) then .ok acc.reverse
    else do
      let b ← pyIndex partData pos
      if b == 36 then
        let endPos := pyFind partData crlfB pos
        let bulkLen ← pyIntOfBytes (pySlice partData (pos + 1) endPos)
        if bulkLen == -1 then
          decodeArrayLoop partData fuel (endPos + 2) (.pnone :: acc)
        else
          let stringStart := endPos + 2
          let stringEnd := stringStart + bulkLen
          decodeArrayLoop partData fuel (stringEnd + 2)
            (.pstr (utf8DecodeIgnore (pySlice partData stringStart stringEnd)) :: acc)
      else if b == 58 then
        let endPos := pyFind partData crlfB pos
        let n ← pyIntOfBytes (pySlice partData (pos + 1) endPos)
        decodeArrayLoop partData fuel (endPos + 2) (.pint n :: acc)
      else if b == 43 then
        let endPos := pyFind partData crlfB pos
        decodeArrayLoop partData fuel (endPos + 2)
          (.pstr (utf8DecodeIgnore (pySlice partData (pos + 1) endPos)) :: acc)
      else if b == 45 then
        let endPos := pyFind partData crlfB pos
        decodeArrayLoop partData fuel (endPos + 2)
          (.perr (utf8DecodeIgnore (pySlice partData (pos + 1) endPos)) :: acc)
      else .ok acc.reverse

/-- Embedding of `decode_resp` (src/redis_fuzzer.py:69-137) on a byte
string, exceptions modelled as `Except.error`.  The source sets
`data_type = data[0]` — an `int`, since indexing `bytes` yields an
`int` in Python 3 — and then tests `data_type == b"+"` and so on
against one-byte `bytes` literals; every such cross-type comparison is
`False` (see `pyEq`), so control always reaches the trailing `else`
and returns `data.decode("utf-8", errors="ignore")`. -/
def decode_resp (data : List Nat) : Except PyExn PyObj :=
  match data with
  | [] => .ok .pnone
  | b :: _ =>
    if pyEq (.int b) (.bytes [43]) then
      .ok (.pstr (utf8DecodeIgnore ((pySplitSeq (data.drop 1)).headD [])))
    else if pyEq (.int b) (.bytes [45]) then
      .ok (.perr (utf8DecodeIgnore ((pySplitSeq (data.drop 1)).headD [])))
    else if pyEq (.int b) (.bytes [58]) then do
      let n ← pyIntOfBytes ((pySplitSeq (data.drop 1)).headD [])
      .ok (.pint n)
    else if pyEq (.int b) (.bytes [36]) then do
      let length ← pyIntOfBytes ((pySplitSeq (data.drop 1)).headD [])
      if length == -1 then .ok .pnone
      else
        let start := pyFind data crlfB 0 + 2
        .ok (.pstr (utf8DecodeIgnore (pySlice data start (start + length))))
    else if pyEq (.int b) (.bytes [42]) then do
      let parts := pySplitSeq data
      let length ← pyIntOfBytes ((parts.headD []).drop 1)
      if length == -1 then .ok .pnone
      else
        let partData := pyJoinSeq crlfB parts.tail
        let res ← decodeArrayLoop partData length.toNat 0 []
        .ok (.plist res)
    else .ok (.pstr (utf8DecodeIgnore data))

/-! ## Random-command generation (`RedisCommandGenerator`)

The global `random` module is modelled by explicit oracle records: one
rational in `[0,1)` per `random.random()` call site, one natural per
`random.choice`/`random.randint` call site (reduced modulo the relevant
size, so every oracle denotes a legal draw).  The pools
(`INPUT_VALUES`, `DICT_VALUES`), the configured `DICT_MIX_RATIO`, the
`ARG_TYPE_MAP`/`DATA_TYPES` tables and the `EXCLUDED_COMMANDS` /
`FOCUS_COMMANDS` sets — module-level globals loaded from files and
environment variables — are parameters of the embedding. -/

/-- Python truthiness of an `Optional[str]`: `None` and the empty
string are falsy (`if dict_value:` at src/redis_fuzzer.py:222). -/
def pyTruthyOptStr : Option String → Bool
  | none => false
  | some s => s ≠ ""

/-- `random.choice(l)` with the oracle draw `i`: element `i % len`.
Only ever meaningful for non-empty `l` (Python raises on empty; the
source only reaches a choice with a non-empty list, and theorems carry
the corresponding non-emptiness facts). -/
def pyChoice (l : List String) (i : Nat) : String :=
  l.getD (i % l.length) ""

/-- `random.randint(lo, hi)` (inclusive bounds) with oracle draw `d`. -/
def pyRandint (lo hi d : Nat) : Nat :=
  lo + d % (hi - lo + 1)

/-- `random.sample(l, k)` and (with `k = l.length`) `random.shuffle`:
repeatedly extract the element at the oracle-designated index from the
not-yet-chosen remainder — sampling without replacement. -/
def pySample {α : Type} : List Nat → Nat → List α → List α
  | _, 0, _ => []
  | _, _ + 1, [] => []
  | idxs, k + 1, a :: tl =>
    let l := a :: tl
    let i := idxs.headD 0 % l.length
    (l.getD i a) :: pySample idxs.tail k (l.take i ++ l.drop (i + 1))

/-- `random.shuffle(l)`: a permutation of `l` chosen by the oracle. -/
def pyShuffle {α : Type} (idxs : List Nat) (l : List α) : List α :=
  pySample idxs l.length l

/-- A value of the `ARG_TYPE_MAP` dictionary: either a type-name string
or a callable (modelled by the string it would return on this call). -/
inductive TypeEntry where
  | tname : String → TypeEntry
  | tcall : String → TypeEntry

/-- The module-level configuration of the generator: the two literal
pools, the mix ratio, and snapshots of the `ARG_TYPE_MAP` and
`DATA_TYPES` tables (`dataTypes k = some v`: key `k` is present and a
call of its generator now returns `v`). -/
structure GenEnv where
  inputValues : List String
  dictValues : List String
  mixRatio : ℚ
  argTypeMap : String → Option TypeEntry
  dataTypes : String → Option String

/-- Random draws consumed by one `generate_random_arg` call. -/
structure ArgOracle where
  mixDraw : ℚ
  poolDraw : ℚ
  inputIdx : Nat
  dictIdx : Nat
  variantDraw : ℚ

/-- Embedding of `RedisCommandGenerator.get_value_from_dictionary`
(src/redis_fuzzer.py:206-214): corpus when it is non-empty and the
50/50 draw is below 0.5; else dictionary when non-empty; else `None`.
(The `arg_type` parameter is unused in the source too.) -/
def get_value_from_dictionary (env : GenEnv) (o : ArgOracle) : Option String :=
  if env.inputValues ≠ [] ∧ o.poolDraw < mkRat 1 2 then
    some (pyChoice env.inputValues o.inputIdx)
  else if env.dictValues ≠ [] then
    some (pyChoice env.dictValues o.dictIdx)
  else none

/-- The synthetic stage of `generate_random_arg`
(src/redis_fuzzer.py:226-246), everything below the dictionary check.
`callable(arg_type)` is always `False` here since every call site
passes a `str`; `ARG_TYPE_MAP` membership selects between the mapped
cases and the trailing `return arg_type` pass-through.  Table calls
`DATA_TYPES[k]()` are modelled by the snapshot lookup (`getD ""` is
only evaluated on keys the guards established to be present, matching
the shipped tables). -/
def synthStage (env : GenEnv) (o : ArgOracle) (argType : String) : String :=
  match env.argTypeMap argType with
  | some (.tcall v) => v
  | some (.tname typeName) =>
    if o.variantDraw < mkRat 1 5 ∧ (env.dataTypes ("special_" ++ typeName)).isSome then
      (env.dataTypes ("special_" ++ typeName)).getD ""
    else if o.variantDraw < mkRat 2 5 ∧ (env.dataTypes ("escaped_" ++ typeName)).isSome then
      (env.dataTypes ("escaped_" ++ typeName)).getD ""
    else if o.variantDraw < mkRat 3 5 ∧ typeName ∈ ["string", "value", "message", "element"] then
      (env.dataTypes "mixed_string").getD ""
    else if o.variantDraw < mkRat 4 5 ∧ typeName ∈ ["string", "value", "message", "element"] then
      (env.dataTypes "binary_string").getD ""
    else (env.dataTypes typeName).getD ""
  | none => argType

/-- Embedding of `RedisCommandGenerator.generate_random_arg`
(src/redis_fuzzer.py:216-246): a first `[0,1)` draw against the mix
ratio gates the dictionary stage; a falsy pool pick (`None` or the
empty string) falls through to the synthetic stage. -/
def generate_random_arg (env : GenEnv) (o : ArgOracle) (argType : String) : String :=
  if o.mixDraw < env.mixRatio then
    let dictValue := get_value_from_dictionary env o
    if pyTruthyOptStr dictValue then dictValue.getD ""
    else synthStage env o argType
  else synthStage env o argType

/-- One command's schema row in `REDIS_COMMANDS`
(src/redis_commands.py:40-778). -/
structure CmdInfo where
  args : List String
  optional_args : List String

/-- `REDIS_COMMANDS[command]` on the association-list model of the
(insertion-ordered) catalog dictionary. -/
def catalogGet (catalog : List (String × CmdInfo)) (command : String) : CmdInfo :=
  match catalog.find? (fun p => p.1 == command) with
  | some p => p.2
  | none => ⟨[], []⟩

/-- Random draws consumed by expanding one sampled optional-arg spec. -/
structure ExpandOracle where
  altIdx : Nat
  argOracle : ArgOracle

/-- Python `str.split(sep)` for a one-character separator (keeps empty
pieces, like `"a  b".split(" ") == ["a", "", "b"]`). -/
def pySplitStr (sep : Char) (s : String) : List String :=
  (pySplitList sep s.data).map String.mk

/-- Expansion of one sampled optional-argument spec: the body of the
`for opt_arg in random.sample(...)` loop (src/redis_fuzzer.py:291-301).
Only specs containing a space are split; the `|`-alternative choice
happens only for a multi-part spec whose first part contains `|`. -/
def expandOptArg (env : GenEnv) (o : ExpandOracle) (spec : String) : List String :=
  if spec.data.contains ' ' then
    let optParts := pySplitStr ' ' spec
    if (optParts.headD "").data.contains '|' then
      [pyChoice (pySplitStr '|' (optParts.headD "")) o.altIdx]
    else
      (optParts.headD "") ::
        (if optParts.length > 1 then
          [generate_random_arg env o.argOracle (optParts.getD 1 "")]
        else [])
  else [spec]

/-- Random draws consumed by one `generate_random_command` call. -/
structure CmdOracle where
  focusDraw : ℚ
  focusIdx : Nat
  cmdIdx : Nat
  argOracles : Nat → ArgOracle
  optDraw : ℚ
  sampleK : Nat
  sampleIdxs : List Nat
  expandOracles : Nat → ExpandOracle

/-- The command-selection block of `generate_random_command`
(src/redis_fuzzer.py:261-276): with a non-empty focus list, a single
focus command is taken with probability 0.30 and one of several focus
commands with probability 0.50; otherwise (and on the complementary
branches) a uniform pick from the available commands. -/
def selectCommand (available focusCandidates : List String) (o : CmdOracle) : String :=
  if focusCandidates ≠ [] then
    if focusCandidates.length = 1 then
      if o.focusDraw < mkRat 3 10 then focusCandidates.headD ""
      else pyChoice available o.cmdIdx
    else
      if o.focusDraw < mkRat 1 2 then pyChoice focusCandidates o.focusIdx
      else pyChoice available o.cmdIdx
  else pyChoice available o.cmdIdx

/-- Embedding of `RedisCommandGenerator.generate_random_command`
(src/redis_fuzzer.py:248-303): filter the exclusions out of the catalog
keys (falling back to the full key list when everything is excluded),
pick the command through the focus logic, generate the required args in
schema order, then with probability 0.7 expand a without-replacement
sample of `randint(0, len)` optional specs. -/
def generate_random_command (catalog : List (String × CmdInfo))
    (excluded focus : List String) (env : GenEnv) (o : CmdOracle) :
    String × List String :=
  let keys := catalog.map Prod.fst
  let available0 := keys.filter (fun c => !(excluded.contains c))
  let available := if available0 = [] then keys else available0
  let focusCandidates := focus.filter (fun c => !(excluded.contains c))
  let command := selectCommand available focusCandidates o
  let info := catalogGet catalog command
  let requiredArgs := info.args.enum.map
    (fun p => generate_random_arg env (o.argOracles p.1) p.2)
  let optArgs :=
    if info.optional_args ≠ [] ∧ o.optDraw < mkRat 7 10 then
      let k := pyRandint 0 info.optional_args.length o.sampleK
      let sampled := pySample o.sampleIdxs k info.optional_args
      (sampled.enum.map (fun p => expandOptArg env (o.expandOracles p.1) p.2)).flatten
    else []
  (command, requiredArgs ++ optArgs)

/-! ## Seed parsing and mixing (`AFLFuzzer.parse_afl_input`) -/

/-- Is this code point ASCII whitespace (the inputs the theorems touch
are ASCII, where Python's `str.strip` agrees with this)? -/
def isWsChar (c : Char) : Bool :=
  c == ' ' || c == '\t' || c == '\n' || c == '\r' ||
    c == Char.ofNat 11 || c == Char.ofNat 12

/-- `str.strip()` (ASCII model). -/
def pyStrip (s : String) : String :=
  String.mk (((s.data.dropWhile isWsChar).reverse.dropWhile isWsChar).reverse)

/-- `str.upper()` (ASCII model: ASCII lowercase letters map to upper
case; Python additionally maps non-ASCII cased letters). -/
def pyUpper (s : String) : String :=
  String.mk (s.data.map (fun c =>
    if 'a' ≤ c ∧ c ≤ 'z' then Char.ofNat (c.toNat - 32) else c))

/-- The parsing stage of `AFLFuzzer.parse_afl_input`
(src/redis_fuzzer.py:406-423): split the raw bytes on `b"\n"`, skip
empty lines, decode/strip/split each line on single spaces, upper-case
the first token, and keep `(command, args)` exactly when the command is
a catalog key and not excluded. -/
def parseLine (keys excluded : List String) (line : List Nat)
    (acc : List (String × List String)) : List (String × List String) :=
  if line = [] then acc
  else
    let parts := pySplitStr ' ' (pyStrip (utf8DecodeIgnore line))
    if parts = [] then acc
    else
      let command := pyUpper (parts.headD "")
      let args := parts.tail
      if keys.contains command && !(excluded.contains command) then
        (command, args) :: acc
      else acc

/-- The whole parsing loop: `parseLine` folded over the newline-split
input, accumulating accepted commands in input order. -/
def parsedCommands (keys excluded : List String) (input : List Nat) :
    List (String × List String) :=
  (pySplitList 10 input).foldr (parseLine keys excluded) []

/-- `MAX_COMMANDS_PER_TEST` (src/redis_fuzzer.py:27). -/
def MAX_COMMANDS_PER_TEST : Nat := 20

/-- Random draws consumed by one `parse_afl_input` call after parsing. -/
structure ParseOracle where
  numDraw : Nat
  sampleIdxs : List Nat
  genOracles : Nat → CmdOracle
  shuffleIdxs : List Nat

/-- Embedding of the mixing part of `AFLFuzzer.parse_afl_input`
(src/redis_fuzzer.py:427-456): draw a target count in
`[1, MAX_COMMANDS_PER_TEST]`; when commands were parsed, sample
`min(len(parsed), num//2 + 1)` of them without replacement and pad with
freshly generated commands up to the target; otherwise generate the
whole target; finally shuffle once. -/
def parse_afl_input (catalog : List (String × CmdInfo))
    (excluded focus : List String) (env : GenEnv) (o : ParseOracle)
    (input : List Nat) : List (String × List String) :=
  let parsed := parsedCommands (catalog.map Prod.fst) excluded input
  let numCommands := pyRandint 1 MAX_COMMANDS_PER_TEST o.numDraw
  let combined :=
    if parsed ≠ [] then
      let numParsed := min parsed.length (numCommands / 2 + 1)
      let sampled := pySample o.sampleIdxs numParsed parsed
      sampled ++ (List.range (numCommands - numParsed)).map
        (fun i => generate_random_command catalog excluded focus env (o.genOracles i))
    else
      (List.range numCommands).map
        (fun i => generate_random_command catalog excluded focus env (o.genOracles i))
  pyShuffle o.shuffleIdxs combined

/-! ## Test execution (`AFLFuzzer.execute_tests`) -/

/-- What the transport/server side does to the `i`-th command — the
external behaviour of `redis_client.execute_command` at that call:
a returned value (including the error dictionaries `execute_command`
itself builds from caught socket errors), an escaping
`socket.timeout`, or another escaping exception. -/
inductive ExecOutcome where
  | ret : PyObj → ExecOutcome
  | timeoutExn : ExecOutcome
  | raised : String → ExecOutcome

/-- The payload of one recorded result dictionary: a `"result"` entry
or an `"error"` entry. -/
inductive ResultVal where
  | res : PyObj → ResultVal
  | err : String → ResultVal

/-- One entry of `self.results`: `{"command": ..., "args": ...}` plus
exactly one of `"result"`/`"error"`. -/
structure ResultEntry where
  command : String
  args : List String
  outcome : ResultVal

/-- The `self.stats` counters of `AFLFuzzer`. -/
structure RunStats where
  total : Nat
  successful : Nat
  errors : Nat
  timeouts : Nat

/-- The external circumstances of one `execute_tests` run: whether the
initial connection took (`redis_client.sock` non-null) and each
command's outcome. -/
structure ExecEnv where
  connected : Bool
  outcomeAt : Nat → ExecOutcome

/-- The `for idx, (command, args) in enumerate(self.test_cases)` loop of
`execute_tests` (src/redis_fuzzer.py:496-516): every iteration appends
exactly one result — the try/except arms turn a raised
`socket.timeout` into an `"error": "Timeout"` entry and any other
exception into an `"error": str(e)` entry — and the loop then proceeds
to the next command. -/
def execLoop (outcomeAt : Nat → ExecOutcome) :
    Nat → List (String × List String) → List ResultEntry × RunStats
  | _, [] => ([], ⟨0, 0, 0, 0⟩)
  | i, (command, args) :: rest =>
    let (entries, st) := execLoop outcomeAt (i + 1) rest
    match outcomeAt i with
    | .ret v =>
      (⟨command, args, .res v⟩ :: entries,
        { st with total := st.total + 1, successful := st.successful + 1 })
    | .timeoutExn =>
      (⟨command, args, .err "Timeout"⟩ :: entries,
        { st with total := st.total + 1, timeouts := st.timeouts + 1 })
    | .raised msg =>
      (⟨command, args, .err msg⟩ :: entries,
        { st with total := st.total + 1, errors := st.errors + 1 })

/-- Embedding of `AFLFuzzer.execute_tests` (src/redis_fuzzer.py:465-522):
a failed initial connection records no per-command results and counts
the whole test case as errored; otherwise the command loop runs. -/
def execute_tests (e : ExecEnv) (cmds : List (String × List String)) :
    List ResultEntry × RunStats :=
  if e.connected then execLoop e.outcomeAt 0 cmds
  else ([], ⟨0, 0, cmds.length, 0⟩)

/-! ## Spec-side definitions and concrete fixtures -/

/-- Concatenation of a list of strings, in order. -/
def concatAll : List String → String
  | [] => ""
  | s :: rest => s ++ concatAll rest

/-- Modelled from the spec's frame grammar (§4.1), with the length
prefix of a text frame amended from "byte length" to the source's
character count: text becomes `"$" + count + CRLF + text + CRLF`,
an integer `":" + digits + CRLF`, a list `"*" + count + CRLF` followed
by the encodings of its elements in their original order, `None`
becomes `"$-1\r\n"`, and any other scalar `"+" + text + CRLF`. -/
def respFrameSpec : PyObj → String
  | .pstr s => "$" ++ toString s.length ++ crlf ++ s ++ crlf
  | .pint n => ":" ++ toString n ++ crlf
  | .plist l => "*" ++ toString l.length ++ crlf
      ++ concatAll (l.attach.map (fun x => respFrameSpec x.1))
  | .pnone => "$-1\r\n"
  | .perr e => "+" ++ pyDictStr e ++ crlf
  | .pother s => "+" ++ s ++ crlf
decreasing_by
  have h1 := List.sizeOf_lt_of_mem x.2
  simp only [PyObj.plist.sizeOf_spec]
  omega

/-- The result entry `execute_tests` is expected to record for a
command with the given outcome (spec §4.4: a per-command failure
produces a Result carrying that failure). -/
def resultOf (cmd : String × List String) (oc : ExecOutcome) : ResultEntry :=
  match oc with
  | .ret v => ⟨cmd.1, cmd.2, .res v⟩
  | .timeoutExn => ⟨cmd.1, cmd.2, .err "Timeout"⟩
  | .raised msg => ⟨cmd.1, cmd.2, .err msg⟩

/-- The target command count drawn by `parse_afl_input`. -/
def mixTarget (o : ParseOracle) : Nat :=
  pyRandint 1 MAX_COMMANDS_PER_TEST o.numDraw

/-- `num_parsed` as computed by `parse_afl_input`. -/
def mixNumParsed (parsed : List (String × List String)) (o : ParseOracle) : Nat :=
  min parsed.length (mixTarget o / 2 + 1)

/-- The without-replacement sample `parse_afl_input` takes from the
parsed commands. -/
def mixSampled (parsed : List (String × List String)) (o : ParseOracle) :
    List (String × List String) :=
  pySample o.sampleIdxs (mixNumParsed parsed o) parsed

/-- The freshly generated commands `parse_afl_input` pads with. -/
def mixGenerated (catalog : List (String × CmdInfo)) (excluded focus : List String)
    (env : GenEnv) (o : ParseOracle) (padCount : Nat) : List (String × List String) :=
  (List.range padCount).map
    (fun i => generate_random_command catalog excluded focus env (o.genOracles i))

/-- The seed-mixing scenario input bytes `b"GET foo\nBADCMD x\n"`. -/
def scenarioInput : List Nat := utf8Encode "GET foo\nBADCMD x\n"

/-- A fixed argument-generation oracle for concrete instantiations. -/
def argO0 : ArgOracle := ⟨0, 0, 0, 0, 0⟩

/-- A fixed expansion oracle for concrete instantiations. -/
def expO0 : ExpandOracle := ⟨0, argO0⟩

/-- An `ARG_TYPE_MAP` snapshot with no entries. -/
def emptyTypeMap : String → Option TypeEntry := fun _ => none

/-- A `DATA_TYPES` snapshot with no entries. -/
def emptyDataTypes : String → Option String := fun _ => none

/-- A generator environment with empty pools and the default 0.9 mix
ratio (src/redis_commands.py:23). -/
def env0 : GenEnv := ⟨[], [], mkRat 9 10, emptyTypeMap, emptyDataTypes⟩

/-- A fixed command-generation oracle for concrete instantiations. -/
def cmdO0 : CmdOracle := ⟨0, 0, 0, fun _ => argO0, 0, 0, [], fun _ => expO0⟩

/-- A one-command catalog holding only `GET` (its genuine schema row). -/
def catalogGETonly : List (String × CmdInfo) := [("GET", ⟨["key"], []⟩)]

/-- An `ARG_TYPE_MAP` snapshot holding only the genuine entry
`"key" ↦ "key"` (src/redis_commands.py:1080). -/
def tmKey : String → Option TypeEntry :=
  fun t => if t == "key" then some (.tname "key") else none

/-- A `DATA_TYPES` snapshot for which the `"key"` generator produces
`"key:qqqq"` (the shape `DATA_TYPES["key"]` generates). -/
def dtKey : String → Option String :=
  fun t => if t == "key" then some "key:qqqq" else none

/-- C4 counterexample environment: non-empty corpus, empty dictionary,
default mix ratio 0.9. -/
def envC4 : GenEnv := ⟨["x"], [], mkRat 9 10, tmKey, dtKey⟩

/-- C4 counterexample oracle: the mix draw 0 passes the ratio check,
the pool draw 0.7 sends `get_value_from_dictionary` to the (empty)
dictionary side, the variant draw 0.9 selects the base generator. -/
def oC4 : ArgOracle := ⟨0, mkRat 7 10, 0, 0, mkRat 9 10⟩

/-- C4 witness environment: corpus `["hello"]`, dictionary `["w"]`. -/
def envC4w : GenEnv := ⟨["hello"], ["w"], mkRat 9 10, emptyTypeMap, emptyDataTypes⟩

/-- The genuine `SET` schema row (src/redis_commands.py:72), whose
optional specs include the bare alternative set `"NX|XX"`. -/
def setRow : String × CmdInfo :=
  ("SET", ⟨["key", "value"], ["EX seconds", "PX milliseconds", "NX|XX"]⟩)

/-- C5 counterexample oracle: include optional args (draw 0 < 0.7),
sample size draw 1 (giving `randint(0,3) = 1`), sample index 2 (picking
`"NX|XX"`). -/
def cmdO5 : CmdOracle := ⟨0, 0, 0, fun _ => argO0, 0, 1, [2], fun _ => expO0⟩

/-- A fixed parse oracle for concrete instantiations. -/
def parseO0 : ParseOracle := ⟨0, [], fun _ => cmdO0, []⟩

/-- C8 witness execution environment: connected, the first command's
execution raises, every later one returns `None`. -/
def execEnvW : ExecEnv :=
  ⟨true, fun i => if i == 0 then .raised "forced transport error" else .ret .pnone⟩

/-- C8 witness test case: two commands. -/
def cmdsW : List (String × List String) := [("SET", ["k", "v"]), ("GET", ["k"])]

/-! ## Supporting lemmas -/

theorem pyChoice_mem {l : List String} (h : l ≠ []) (i : Nat) : pyChoice l i ∈ l := by
  have hl : 0 < l.length := List.length_pos.mpr h
  have hi : i % l.length < l.length := Nat.mod_lt _ hl
  rw [pyChoice, List.getD_eq_getElem l "" hi]
  exact List.getElem_mem hi

theorem pySample_length {α : Type} (idxs : List Nat) (k : Nat) (l : List α) :
    (pySample idxs k l).length = min k l.length := by
  induction k generalizing idxs l with
  | zero => simp [pySample]
  | succ k ih =>
    cases l with
    | nil => simp [pySample]
    | cons a tl =>
      rw [pySample]
      have hi : idxs.headD 0 % (a :: tl).length < (a :: tl).length :=
        Nat.mod_lt _ (by simp)
      simp only [List.length_cons, ih, List.length_append, List.length_take, List.length_drop]
      simp only [List.length_cons] at hi
      omega

theorem pySample_subperm {α : Type} (idxs : List Nat) (k : Nat) (l : List α) :
    List.Subperm (pySample idxs k l) l := by
  induction k generalizing idxs l with
  | zero => simp [pySample]
  | succ k ih =>
    cases l with
    | nil => simp [pySample]
    | cons a tl =>
      rw [pySample]
      have hi : idxs.headD 0 % (a :: tl).length < (a :: tl).length :=
        Nat.mod_lt _ (by simp)
      set l := a :: tl with hl
      set i := idxs.headD 0 % l.length with hdefi
      have hx : l.getD i a = l[i] := List.getD_eq_getElem l a hi
      have hrest : List.Subperm (pySample idxs.tail k (l.take i ++ l.drop (i + 1)))
          (l.take i ++ l.drop (i + 1)) := ih _ _
      have hcons : List.Subperm
          (l.getD i a :: pySample idxs.tail k (l.take i ++ l.drop (i + 1)))
          (l.getD i a :: (l.take i ++ l.drop (i + 1))) :=
        (List.subperm_cons _).mpr hrest
      refine hcons.trans (List.Perm.subperm ?_)
      rw [hx]
      have hmid : List.Perm (l[i] :: (l.take i ++ l.drop (i + 1)))
          (l.take i ++ l[i] :: l.drop (i + 1)) := List.perm_middle.symm
      refine hmid.trans ?_
      rw [List.getElem_cons_drop, List.take_append_drop]

theorem pySample_mem {α : Type} {idxs : List Nat} {k : Nat} {l : List α} {x : α}
    (h : x ∈ pySample idxs k l) : x ∈ l :=
  (pySample_subperm idxs k l).subset h

theorem pyShuffle_perm {α : Type} (idxs : List Nat) (l : List α) :
    List.Perm (pyShuffle idxs l) l := by
  refine (pySample_subperm idxs l.length l).perm_of_length_le ?_
  rw [pySample_length]
  simp

theorem pyShuffle_length {α : Type} (idxs : List Nat) (l : List α) :
    (pyShuffle idxs l).length = l.length :=
  (pyShuffle_perm idxs l).length_eq

theorem pySplitList_ne_nil [BEq α] (sep : α) (l : List α) :
    pySplitList sep l ≠ [] := by
  cases l with
  | nil => simp [pySplitList]
  | cons b rest =>
    rw [pySplitList]
    split <;> simp

theorem pySplitStr_ne_nil (sep : Char) (s : String) : pySplitStr sep s ≠ [] := by
  rw [pySplitStr]
  simp [pySplitList_ne_nil]

/-- `parseLine` only ever adds a pair whose command is a catalog key
and not excluded. -/
theorem parseLine_mem {keys excluded : List String} {line : List Nat}
    {acc : List (String × List String)} {ca : String × List String}
    (h : ca ∈ parseLine keys excluded line acc) :
    ca ∈ acc ∨ (ca.1 ∈ keys ∧ ca.1 ∉ excluded) := by
  rw [parseLine] at h
  by_cases h1 : line = []
  · rw [if_pos h1] at h; exact .inl h
  · rw [if_neg h1] at h
    by_cases h2 : pySplitStr ' ' (pyStrip (utf8DecodeIgnore line)) = []
    · rw [if_pos h2] at h; exact .inl h
    · rw [if_neg h2] at h
      simp only at h
      set command := pyUpper ((pySplitStr ' ' (pyStrip (utf8DecodeIgnore line))).headD "")
      by_cases h3 : (keys.contains command && !(excluded.contains command)) = true
      · rw [if_pos h3] at h
        rcases List.mem_cons.mp h with h4 | h4
        · subst h4
          simp only [Bool.and_eq_true, Bool.not_eq_true'] at h3
          exact .inr ⟨by simpa using h3.1, by simpa using h3.2⟩
        · exact .inl h4
      · rw [if_neg h3] at h; exact .inl h

/-- Every command accepted by the parsing stage is a catalog key and is
not excluded. -/
theorem parsedCommands_mem {keys excluded : List String} {input : List Nat}
    {ca : String × List String} (h : ca ∈ parsedCommands keys excluded input) :
    ca.1 ∈ keys ∧ ca.1 ∉ excluded := by
  rw [parsedCommands] at h
  generalize pySplitList 10 input = lines at h
  induction lines with
  | nil => simp at h
  | cons line rest ih =>
    rw [List.foldr_cons] at h
    rcases parseLine_mem h with h4 | h4
    · exact ih h4
    · exact h4

/-- `selectCommand` either picks from the available list or (with a
non-empty focus-candidate list) from the focus candidates. -/
theorem selectCommand_cases (available fc : List String) (o : CmdOracle) :
    selectCommand available fc o = pyChoice available o.cmdIdx ∨
      (fc ≠ [] ∧ selectCommand available fc o ∈ fc) := by
  rw [selectCommand]
  by_cases h1 : fc ≠ []
  · rw [if_pos h1]
    by_cases h2 : fc.length = 1
    · rw [if_pos h2]
      by_cases h3 : o.focusDraw < mkRat 3 10
      · rw [if_pos h3]
        refine .inr ⟨h1, ?_⟩
        cases fc with
        | nil => exact absurd rfl h1
        | cons a t => simp
      · rw [if_neg h3]; exact .inl rfl
    · rw [if_neg h2]
      by_cases h3 : o.focusDraw < mkRat 1 2
      · rw [if_pos h3]; exact .inr ⟨h1, pyChoice_mem h1 _⟩
      · rw [if_neg h3]; exact .inl rfl
  · rw [if_neg h1]; exact .inl rfl

/-- A generated command's name is always a catalog key, provided the
catalog is non-empty and every focus command is a catalog key (the
loader in src/redis_commands.py:793-800 only admits focus commands that
are `REDIS_COMMANDS` keys). -/
theorem genCmd_name_mem (catalog : List (String × CmdInfo))
    (excluded focus : List String) (env : GenEnv) (o : CmdOracle)
    (hk : catalog.map Prod.fst ≠ [])
    (hf : ∀ f ∈ focus, f ∈ catalog.map Prod.fst) :
    (generate_random_command catalog excluded focus env o).1 ∈ catalog.map Prod.fst := by
  rw [generate_random_command]
  simp only
  set keys := catalog.map Prod.fst with hkeys
  set available0 := keys.filter (fun c => !(excluded.contains c)) with hav0
  set available := if available0 = [] then keys else available0 with hav
  have havne : available ≠ [] := by
    rw [hav]
    split
    · exact hk
    · assumption
  have havsub : ∀ x ∈ available, x ∈ keys := by
    intro x hx
    rw [hav] at hx
    split at hx
    · exact hx
    · exact (List.mem_filter.mp hx).1
  set focusCandidates := focus.filter (fun c => !(excluded.contains c)) with hfc
  have hfcsub : ∀ x ∈ focusCandidates, x ∈ keys := by
    intro x hx
    exact hf x (List.mem_filter.mp hx).1
  rcases selectCommand_cases available focusCandidates o with h | ⟨hne, hmem⟩
  · rw [h]; exact havsub _ (pyChoice_mem havne _)
  · exact hfcsub _ hmem

/-- A generated command's name avoids the exclusion set whenever some
catalog key is not excluded. -/
theorem genCmd_not_excluded (catalog : List (String × CmdInfo))
    (excluded focus : List String) (env : GenEnv) (o : CmdOracle)
    (h : ∃ c ∈ catalog.map Prod.fst, c ∉ excluded) :
    (generate_random_command catalog excluded focus env o).1 ∉ excluded := by
  rw [generate_random_command]
  simp only
  set keys := catalog.map Prod.fst with hkeys
  set available0 := keys.filter (fun c => !(excluded.contains c)) with hav0
  have hav0ne : available0 ≠ [] := by
    obtain ⟨c, hc, hcx⟩ := h
    have : c ∈ available0 := by
      rw [hav0]
      refine List.mem_filter.mpr ⟨hc, ?_⟩
      simpa using hcx
    exact List.ne_nil_of_mem this
  set available := if available0 = [] then keys else available0 with hav
  have havav0 : available = available0 := by
    rw [hav, if_neg hav0ne]
  have hchoice : ∀ i, pyChoice available0 i ∉ excluded := by
    intro i
    have hm : pyChoice available0 i ∈ available0 := pyChoice_mem hav0ne i
    have hp := (List.mem_filter.mp hm).2
    simpa using hp
  set focusCandidates := focus.filter (fun c => !(excluded.contains c)) with hfc
  have hfcx : ∀ x ∈ focusCandidates, x ∉ excluded := by
    intro x hx
    have hp := (List.mem_filter.mp hx).2
    simpa using hp
  rcases selectCommand_cases available focusCandidates o with hcase | ⟨hne, hmem⟩
  · rw [hcase, havav0]
    exact hchoice o.cmdIdx
  · exact hfcx _ hmem

theorem encodeList_concat (l : List PyObj) :
    encodeList l = concatAll (l.map encode_resp) := by
  induction l with
  | nil => simp [encodeList, concatAll]
  | cons x xs ih => simp [encodeList, concatAll, ih]

/-- Auxiliary strong induction on `sizeOf` for the nested inductive. -/
theorem encode_resp_eq_spec_aux :
    ∀ (n : Nat) (v : PyObj), sizeOf v ≤ n → encode_resp v = respFrameSpec v := by
  intro n
  induction n with
  | zero =>
    intro v h
    exfalso
    cases v <;> simp at h
  | succ n ih =>
    intro v h
    cases v with
    | pstr s => simp [encode_resp, respFrameSpec]
    | pint m => simp [encode_resp, respFrameSpec]
    | pnone => simp [encode_resp, respFrameSpec, crlf]
    | perr e => simp [encode_resp, respFrameSpec]
    | pother s => simp [encode_resp, respFrameSpec]
    | plist l =>
      have hl : ∀ x ∈ l, encode_resp x = respFrameSpec x := by
        intro x hx
        refine ih x ?_
        have h1 := List.sizeOf_lt_of_mem hx
        have h2 : sizeOf (PyObj.plist l) = 1 + sizeOf l := by simp
        omega
      simp only [encode_resp, respFrameSpec, encodeList_concat]
      have hmap : l.attach.map (fun x => respFrameSpec x.1) = l.map respFrameSpec := by
        simp [List.attach_map_coe]
      rw [hmap, List.map_congr_left hl]

theorem pySample_one {α : Type} (idxs : List Nat) (x : α) :
    pySample idxs 1 [x] = [x] := by
  rw [pySample]
  simp [pySample]

/-- On the scenario input, with `GET` in the catalog and not excluded
and `BADCMD` not in the catalog, parsing accepts exactly the `GET`
line. -/
theorem scenario_parsed (keys excluded : List String)
    (hG : "GET" ∈ keys) (hGx : "GET" ∉ excluded) (hB : "BADCMD" ∉ keys) :
    parsedCommands keys excluded scenarioInput = [("GET", ["foo"])] := by
  have hkG : keys.contains "GET" = true := by simpa using hG
  have hxG : excluded.contains "GET" = false := by simpa using hGx
  have hkB : keys.contains "BADCMD" = false := by simpa using hB
  have hsplit : pySplitList 10 scenarioInput
      = [[71, 69, 84, 32, 102, 111, 111], [66, 65, 68, 67, 77, 68, 32, 120], []] := by
    decide
  rw [parsedCommands, hsplit]
  simp only [List.foldr_cons, List.foldr_nil]
  have h0 : parseLine keys excluded [] [] = [] := by
    rw [parseLine, if_pos rfl]
  rw [h0]
  have hb : parseLine keys excluded [66, 65, 68, 67, 77, 68, 32, 120] [] = [] := by
    rw [parseLine, if_neg (by decide)]
    have hparts : pySplitStr ' '
        (pyStrip (utf8DecodeIgnore [66, 65, 68, 67, 77, 68, 32, 120]))
        = ["BADCMD", "x"] := by decide
    simp only [hparts]
    rw [if_neg (by decide)]
    simp only [List.headD_cons]
    have hup : pyUpper "BADCMD" = "BADCMD" := by decide
    rw [hup, hkB]
    simp
  rw [hb]
  rw [parseLine, if_neg (by decide)]
  have hparts : pySplitStr ' '
      (pyStrip (utf8DecodeIgnore [71, 69, 84, 32, 102, 111, 111]))
      = ["GET", "foo"] := by decide
  simp only [hparts]
  rw [if_neg (by decide)]
  simp only [List.headD_cons]
  have hup : pyUpper "GET" = "GET" := by decide
  rw [hup, hkG, hxG]
  simp

/-! ## The claims -/

/-- C1: the spec's round-trip property `decode(encode(v)) = v` fails on
the code.  At `v = "foo"` the encoder emits the frame `"$3\r\nfoo\r\n"`,
but the decoder's type dispatch compares `data[0]` — an `int` in
Python 3 — against the `bytes` literals `b"+"`, `b"-"`, `b":"`, `b"$"`,
`b"*"`, comparisons that are always `False`, so it returns the whole
buffer decoded as text instead of the bulk-string payload. -/
theorem c1_roundtrip_broken :
    encode_resp (.pstr "foo") = "$3\r\nfoo\r\n" ∧
    decode_resp (utf8Encode (encode_resp (.pstr "foo"))) = .ok (.pstr "$3\r\nfoo\r\n") ∧
    ("$3\r\nfoo\r\n" : String) ≠ "foo" := by
  have h : encode_resp (.pstr "foo") = "$3\r\nfoo\r\n" := by
    simp [encode_resp, crlf]; rfl
  refine ⟨h, ?_, by decide⟩
  rw [h]; rfl

/-- C2: for every input buffer — including a truncated bulk-string
frame — `decode_resp` returns a defined value and never raises: the
empty buffer decodes to `None` and every non-empty buffer falls through
the (never-matching) type dispatch to
`data.decode("utf-8", errors="ignore")`, which is total. -/
theorem c2_decode_never_raises (data : List Nat) :
    ∃ v, decode_resp data = .ok v := by
  cases data with
  | nil => exact ⟨.pnone, rfl⟩
  | cons b rest =>
    exact ⟨.pstr (utf8DecodeIgnore (b :: rest)), by simp [decode_resp, pyEq]⟩

/-- C6 (amended: the length prefix of a text frame is the text's
character count, which equals its byte length only for ASCII text):
`encode_resp` produces exactly the frame grammar of the spec — bulk
string for text, `":" + digits + CRLF` for integers, `"*" + count`
followed by the element encodings in order for lists, `"$-1\r\n"` for
`None`, and `"+" + text + CRLF` for any other scalar. -/
theorem c6_encode_frames (v : PyObj) : encode_resp v = respFrameSpec v :=
  encode_resp_eq_spec_aux (sizeOf v) v le_rfl

/-- C6 counterexample: on the one-character text `"é"` (two UTF-8
bytes) the encoder writes length prefix 1 — `len()` of a Python 3
`str` counts code points — so the emitted frame differs from the
claimed byte-length-prefixed frame. -/
theorem c6_counterexample :
    encode_resp (.pstr "é") = "$1\r\né\r\n" ∧
    (utf8Encode "é").length = 2 ∧
    encode_resp (.pstr "é")
      ≠ "$" ++ toString (utf8Encode "é").length ++ crlf ++ "é" ++ crlf := by
  have h : encode_resp (.pstr "é") = "$1\r\né\r\n" := by
    simp [encode_resp, crlf]; rfl
  refine ⟨h, by decide, ?_⟩
  rw [h]; decide

/-- C10: decoding the empty buffer indeed returns `None` without
raising, but decoding the nil bulk string `b"$-1\r\n"` does **not**
return `None` — the broken type dispatch returns the raw text
`"$-1\r\n"` — so the two replies are distinguishable, contrary to the
claim. -/
theorem c10_empty_vs_nil :
    decode_resp [] = .ok .pnone ∧
    decode_resp (utf8Encode "$-1\r\n") = .ok (.pstr "$-1\r\n") ∧
    ∀ s, (PyObj.pstr s : PyObj) ≠ .pnone :=
  ⟨rfl, rfl, fun _ h => PyObj.noConfusion h⟩

/-- C3 (amended: the exclusion set is honoured by generation whenever
at least one catalog command is not excluded — if everything is
excluded, generation deliberately falls back to the full catalog — and
is honoured unconditionally by seed parsing). -/
theorem c3_exclusion (catalog : List (String × CmdInfo)) (excluded focus : List String)
    (env : GenEnv) (o : CmdOracle) (input : List Nat) :
    ((∃ c ∈ catalog.map Prod.fst, c ∉ excluded) →
      (generate_random_command catalog excluded focus env o).1 ∉ excluded) ∧
    ∀ ca ∈ parsedCommands (catalog.map Prod.fst) excluded input, ca.1 ∉ excluded :=
  ⟨fun h => genCmd_not_excluded catalog excluded focus env o h,
   fun _ hca => (parsedCommands_mem hca).2⟩

/-- C3 counterexample: when the exclusion set covers the whole catalog,
the fallback at src/redis_fuzzer.py:254-256 reinstates the full key
list, so the generated command name *is* excluded. -/
theorem c3_counterexample :
    (generate_random_command catalogGETonly ["GET"] [] env0 cmdO0).1 = "GET" ∧
    "GET" ∈ (["GET"] : List String) :=
  ⟨by decide, by decide⟩

/-- C3 witness: with `GET` the only catalog command and `FLUSHALL`
excluded, the generated command is not excluded. -/
theorem c3_exclusion_witness :
    (∃ c ∈ catalogGETonly.map Prod.fst, c ∉ (["FLUSHALL"] : List String)) ∧
    (generate_random_command catalogGETonly ["FLUSHALL"] [] env0 cmdO0).1
      ∉ (["FLUSHALL"] : List String) := by
  have hex : ∃ c ∈ catalogGETonly.map Prod.fst, c ∉ (["FLUSHALL"] : List String) :=
    ⟨"GET", by decide, by decide⟩
  exact ⟨hex, (c3_exclusion catalogGETonly ["FLUSHALL"] [] env0 cmdO0 []).1 hex⟩

/-- C4 (amended: when the first draw is below the mix ratio and the
pool pick made by `get_value_from_dictionary` is a *non-empty* string,
that literal is returned unmodified — from the corpus when the corpus
is non-empty and the 50/50 draw is below 0.5, otherwise from the
dictionary; a pool miss (corpus skipped by the coin and dictionary
empty) or an empty-string pick falls back to synthesis instead). -/
theorem c4_pool_literal (env : GenEnv) (o : ArgOracle) (t : String)
    (h1 : o.mixDraw < env.mixRatio)
    (h2 : pyTruthyOptStr (get_value_from_dictionary env o) = true) :
    generate_random_arg env o t = (get_value_from_dictionary env o).getD "" ∧
    (env.inputValues ≠ [] ∧ o.poolDraw < mkRat 1 2 →
      (get_value_from_dictionary env o).getD "" ∈ env.inputValues) ∧
    (¬(env.inputValues ≠ [] ∧ o.poolDraw < mkRat 1 2) →
      (get_value_from_dictionary env o).getD "" ∈ env.dictValues) := by
  refine ⟨?_, ?_, ?_⟩
  · rw [generate_random_arg, if_pos h1]
    simp [h2]
  · intro hc
    rw [get_value_from_dictionary, if_pos hc]
    simpa using pyChoice_mem hc.1 o.inputIdx
  · intro hc
    by_cases hd : env.dictValues ≠ []
    · rw [get_value_from_dictionary, if_neg hc, if_pos hd]
      simpa using pyChoice_mem hd o.dictIdx
    · exfalso
      have hnone : get_value_from_dictionary env o = none := by
        rw [get_value_from_dictionary, if_neg hc, if_neg hd]
      rw [hnone] at h2
      simp [pyTruthyOptStr] at h2

/-- C4 counterexample: corpus `["x"]` non-empty, dictionary empty, mix
draw 0 below the ratio 0.9, but the 50/50 draw 0.7 sends the pick to
the (empty) dictionary side: `get_value_from_dictionary` returns `None`
and the generator synthesizes `"key:qqqq"`, which is in neither pool —
contradicting "the returned string is a literal taken from one of the
non-empty pools". -/
theorem c4_counterexample :
    oC4.mixDraw < envC4.mixRatio ∧ envC4.inputValues ≠ [] ∧
    generate_random_arg envC4 oC4 "key" = "key:qqqq" ∧
    "key:qqqq" ∉ envC4.inputValues ∧ "key:qqqq" ∉ envC4.dictValues :=
  ⟨by decide, by decide, by decide, by decide, by decide⟩

/-- C4 witness: with corpus `["hello"]` and both draws 0, the generator
returns the corpus literal `"hello"` unmodified. -/
theorem c4_pool_literal_witness :
    argO0.mixDraw < envC4w.mixRatio ∧
    pyTruthyOptStr (get_value_from_dictionary envC4w argO0) = true ∧
    generate_random_arg envC4w argO0 "key" = "hello" ∧
    "hello" ∈ envC4w.inputValues := by
  refine ⟨by decide, by decide, ?_, by decide⟩
  have h := (c4_pool_literal envC4w argO0 "key" (by decide) (by decide)).1
  rw [h]; decide

/-- C5 (amended: only a spec containing a space is split — its first
token resolves to one uniformly chosen `|`-alternative when it contains
`|`, and otherwise is emitted verbatim followed by one generated value
for the second token when present (tokens beyond the second are
dropped); a spec *without* a space, including a bare alternative set
such as `"NX|XX"`, is appended verbatim as a single literal). -/
theorem c5_optarg_shapes (env : GenEnv) (o : ExpandOracle) (spec : String) :
    (spec.data.contains ' ' = false → expandOptArg env o spec = [spec]) ∧
    (spec.data.contains ' ' = true →
      ((pySplitStr ' ' spec).headD "").data.contains '|' = true →
      expandOptArg env o spec
          = [pyChoice (pySplitStr '|' ((pySplitStr ' ' spec).headD "")) o.altIdx] ∧
        pyChoice (pySplitStr '|' ((pySplitStr ' ' spec).headD "")) o.altIdx
          ∈ pySplitStr '|' ((pySplitStr ' ' spec).headD "")) ∧
    (spec.data.contains ' ' = true →
      ((pySplitStr ' ' spec).headD "").data.contains '|' = false →
      expandOptArg env o spec
          = ((pySplitStr ' ' spec).headD "") ::
              (if (pySplitStr ' ' spec).length > 1 then
                [generate_random_arg env o.argOracle ((pySplitStr ' ' spec).getD 1 "")]
              else [])) := by
  refine ⟨?_, ?_, ?_⟩
  · intro h
    rw [expandOptArg, if_neg (by simpa using h)]
  · intro h1 h2
    constructor
    · rw [expandOptArg, if_pos h1]
      simp only
      rw [if_pos h2]
    · exact pyChoice_mem (pySplitStr_ne_nil _ _) _
  · intro h1 h2
    rw [expandOptArg, if_pos h1]
    simp only
    rw [if_neg (by simpa using h2)]

/-- C5 counterexample: generating for the genuine `SET` row and
sampling its optional spec `"NX|XX"` (which contains no space) appends
the raw string `"NX|XX"` to the argument list — it is not resolved to
one of the alternatives `NX`/`XX`. -/
theorem c5_counterexample :
    generate_random_command [setRow] [] [] env0 cmdO5
        = ("SET", ["key", "value", "NX|XX"]) ∧
    "NX|XX" ∈ (generate_random_command [setRow] [] [] env0 cmdO5).2 ∧
    "NX|XX" ∉ (["NX", "XX"] : List String) :=
  ⟨by decide, by decide, by decide⟩

/-- C5 witness: the token+type spec `"EX seconds"` expands to the
literal token followed by a generated value, and the bare literal
`"WITHSCORES"` is emitted verbatim. -/
theorem c5_optarg_shapes_witness :
    expandOptArg env0 expO0 "EX seconds" = ["EX", "seconds"] ∧
    expandOptArg env0 expO0 "WITHSCORES" = ["WITHSCORES"] := by
  constructor
  · have h := (c5_optarg_shapes env0 expO0 "EX seconds").2.2 (by decide) (by decide)
    rw [h]; decide
  · exact (c5_optarg_shapes env0 expO0 "WITHSCORES").1 (by decide)

/-- C9: with mix ratio 0.0 the dictionary stage is never taken — the
draw is in `[0,1)` and `draw < 0` is impossible — so the generated
value is exactly the synthetic-stage value, and the synthetic stage
does not read the pools at all. -/
theorem c9_mix_zero (inputs dicts : List String)
    (tm : String → Option TypeEntry) (dt : String → Option String)
    (o : ArgOracle) (t : String) (h : 0 ≤ o.mixDraw) :
    generate_random_arg ⟨inputs, dicts, 0, tm, dt⟩ o t
        = synthStage ⟨inputs, dicts, 0, tm, dt⟩ o t ∧
    synthStage ⟨inputs, dicts, 0, tm, dt⟩ o t = synthStage ⟨[], [], 0, tm, dt⟩ o t := by
  constructor
  · rw [generate_random_arg, if_neg (not_lt.mpr h)]
  · rfl

/-- C9 witness: at mix ratio 0, non-empty pools, and draw 0, the
generator output is the synthetic-stage output. -/
theorem c9_mix_zero_witness :
    (0 : ℚ) ≤ argO0.mixDraw ∧
    generate_random_arg ⟨["a"], ["b"], 0, emptyTypeMap, emptyDataTypes⟩ argO0 "key"
      = synthStage ⟨["a"], ["b"], 0, emptyTypeMap, emptyDataTypes⟩ argO0 "key" :=
  ⟨by decide,
   (c9_mix_zero ["a"] ["b"] emptyTypeMap emptyDataTypes argO0 "key" (by decide)).1⟩

/-- With commands parsed, `parse_afl_input` is the one-time shuffle of
the sampled parsed commands padded with the generated ones. -/
theorem parse_afl_decomp (catalog : List (String × CmdInfo))
    (excluded focus : List String) (env : GenEnv) (o : ParseOracle) (input : List Nat)
    (hp : parsedCommands (catalog.map Prod.fst) excluded input ≠ []) :
    parse_afl_input catalog excluded focus env o input
      = pyShuffle o.shuffleIdxs
          (mixSampled (parsedCommands (catalog.map Prod.fst) excluded input) o
            ++ mixGenerated catalog excluded focus env o
                (mixTarget o
                  - mixNumParsed (parsedCommands (catalog.map Prod.fst) excluded input) o)) := by
  rw [parse_afl_input, if_pos hp]
  rfl

/-- C7: when the input yields at least one parsed command, the combined
test case has exactly the drawn target size (itself in
`[1, MAX_COMMANDS_PER_TEST]`), is a permutation (one shuffle) of a
without-replacement sample of `min(len(parsed), target/2 + 1)` parsed
commands — at least half the target, rounded up, when enough were
parsed — padded with freshly generated commands; and on the input
`b"GET foo\nBADCMD x\n"` with `GET` in the catalog (not excluded) and
`BADCMD` absent, the test case contains `("GET", ["foo"])` and never a
`BADCMD` command. -/
theorem c7_seed_mixing :
    (∀ (catalog : List (String × CmdInfo)) (excluded focus : List String)
        (env : GenEnv) (o : ParseOracle) (input : List Nat),
      parsedCommands (catalog.map Prod.fst) excluded input ≠ [] →
      (parse_afl_input catalog excluded focus env o input).length = mixTarget o ∧
      1 ≤ mixTarget o ∧ mixTarget o ≤ MAX_COMMANDS_PER_TEST ∧
      List.Perm (parse_afl_input catalog excluded focus env o input)
        (mixSampled (parsedCommands (catalog.map Prod.fst) excluded input) o
          ++ mixGenerated catalog excluded focus env o
              (mixTarget o
                - mixNumParsed (parsedCommands (catalog.map Prod.fst) excluded input) o)) ∧
      List.Subperm (mixSampled (parsedCommands (catalog.map Prod.fst) excluded input) o)
        (parsedCommands (catalog.map Prod.fst) excluded input) ∧
      (mixSampled (parsedCommands (catalog.map Prod.fst) excluded input) o).length
        = mixNumParsed (parsedCommands (catalog.map Prod.fst) excluded input) o ∧
      (mixTarget o / 2 + 1 ≤ (parsedCommands (catalog.map Prod.fst) excluded input).length →
        (mixTarget o + 1) / 2
          ≤ (mixSampled (parsedCommands (catalog.map Prod.fst) excluded input) o).length)) ∧
    (∀ (catalog : List (String × CmdInfo)) (excluded focus : List String)
        (env : GenEnv) (o : ParseOracle),
      "GET" ∈ catalog.map Prod.fst → "GET" ∉ excluded →
      "BADCMD" ∉ catalog.map Prod.fst →
      (∀ f ∈ focus, f ∈ catalog.map Prod.fst) →
      ("GET", ["foo"]) ∈ parse_afl_input catalog excluded focus env o scenarioInput ∧
      ∀ args, ("BADCMD", args) ∉ parse_afl_input catalog excluded focus env o scenarioInput) := by
  constructor
  · intro catalog excluded focus env o input hp
    set parsed := parsedCommands (catalog.map Prod.fst) excluded input with hpdef
    have hdecomp := parse_afl_decomp catalog excluded focus env o input hp
    have hperm : List.Perm (parse_afl_input catalog excluded focus env o input)
        (mixSampled parsed o
          ++ mixGenerated catalog excluded focus env o
              (mixTarget o - mixNumParsed parsed o)) := by
      rw [hdecomp]
      exact pyShuffle_perm _ _
    have ht : 1 ≤ mixTarget o ∧ mixTarget o ≤ MAX_COMMANDS_PER_TEST := by
      rw [mixTarget, pyRandint, MAX_COMMANDS_PER_TEST]
      omega
    have hnp : mixNumParsed parsed o ≤ mixTarget o := by
      rw [mixNumParsed]
      omega
    have hslen : (mixSampled parsed o).length = mixNumParsed parsed o := by
      rw [mixSampled, pySample_length, mixNumParsed]
      omega
    have hglen : (mixGenerated catalog excluded focus env o
        (mixTarget o - mixNumParsed parsed o)).length
        = mixTarget o - mixNumParsed parsed o := by
      rw [mixGenerated]
      simp
    refine ⟨?_, ht.1, ht.2, hperm, pySample_subperm _ _ _, hslen, ?_⟩
    · rw [hperm.length_eq, List.length_append, hslen, hglen]
      omega
    · intro hge
      rw [hslen, mixNumParsed]
      omega
  · intro catalog excluded focus env o hG hGx hB hf
    have hp : parsedCommands (catalog.map Prod.fst) excluded scenarioInput
        = [("GET", ["foo"])] := scenario_parsed _ _ hG hGx hB
    have hpne : parsedCommands (catalog.map Prod.fst) excluded scenarioInput ≠ [] := by
      rw [hp]
      simp
    have hdecomp := parse_afl_decomp catalog excluded focus env o scenarioInput hpne
    have hnp1 : mixNumParsed [(("GET" : String), (["foo"] : List String))] o = 1 := by
      rw [mixNumParsed, mixTarget, pyRandint]
      simp
    have hsam : mixSampled [(("GET" : String), (["foo"] : List String))] o
        = [("GET", ["foo"])] := by
      rw [mixSampled, hnp1, pySample_one]
    have hperm : List.Perm (parse_afl_input catalog excluded focus env o scenarioInput)
        ([("GET", ["foo"])]
          ++ mixGenerated catalog excluded focus env o
              (mixTarget o - mixNumParsed [(("GET" : String), (["foo"] : List String))] o)) := by
      rw [hdecomp, hp, hsam]
      exact pyShuffle_perm _ _
    constructor
    · rw [hperm.mem_iff]
      exact List.mem_append_left _ (by simp)
    · intro args hmem
      rw [hperm.mem_iff] at hmem
      rcases List.mem_append.mp hmem with hl | hr
      · simp at hl
      · rw [mixGenerated] at hr
        obtain ⟨i, _, hgen⟩ := List.mem_map.mp hr
        have hname := genCmd_name_mem catalog excluded focus env (o.genOracles i)
          (List.ne_nil_of_mem hG) hf
        rw [hgen] at hname
        exact hB hname

/-- C7 witness: on the scenario bytes with the one-command catalog
`[GET]`, the mixed test case has the target length and contains the
parsed `GET` command. -/
theorem c7_seed_mixing_witness :
    (parse_afl_input catalogGETonly [] [] env0 parseO0 scenarioInput).length
        = mixTarget parseO0 ∧
    ("GET", ["foo"]) ∈ parse_afl_input catalogGETonly [] [] env0 parseO0 scenarioInput := by
  have h1 := c7_seed_mixing.1 catalogGETonly [] [] env0 parseO0 scenarioInput (by decide)
  have h2 := c7_seed_mixing.2 catalogGETonly [] [] env0 parseO0
    (by decide) (by decide) (by decide) (by simp)
  exact ⟨h1.1, h2.1⟩

/-- The execution loop records exactly one result per command, in
order, with the outcome dictated by that command's own execution. -/
theorem execLoop_spec (f : Nat → ExecOutcome) :
    ∀ (cmds : List (String × List String)) (i0 : Nat),
      (execLoop f i0 cmds).1.length = cmds.length ∧
      (∀ i cmd, cmds[i]? = some cmd →
        (execLoop f i0 cmds).1[i]? = some (resultOf cmd (f (i0 + i)))) := by
  intro cmds
  induction cmds with
  | nil =>
    intro i0
    constructor
    · simp [execLoop]
    · intro i cmd h
      simp at h
  | cons ca rest ih =>
    intro i0
    obtain ⟨c, a⟩ := ca
    constructor
    · cases hfo : f i0 <;> simp [execLoop, hfo, (ih (i0 + 1)).1]
    · intro i cmd h
      cases i with
      | zero =>
        simp at h
        subst h
        cases hfo : f i0 <;> simp [execLoop, hfo, resultOf]
      | succ i =>
        simp only [List.getElem?_cons_succ] at h
        have hi := (ih (i0 + 1)).2 i cmd h
        have harith : i0 + 1 + i = i0 + (i + 1) := by omega
        rw [harith] at hi
        cases hfo : f i0 <;> simp [execLoop, hfo] <;> exact hi

/-- C8: with the initial connection established, `execute_tests`
records exactly one Result per command of the test case, in sequence
order, with each command's own outcome (returned value, timeout marker,
or error text) — so no single command's failure aborts the rest. -/
theorem c8_fault_isolation (e : ExecEnv) (cmds : List (String × List String))
    (h : e.connected = true) :
    (execute_tests e cmds).1.length = cmds.length ∧
    ∀ i cmd, cmds[i]? = some cmd →
      (execute_tests e cmds).1[i]? = some (resultOf cmd (e.outcomeAt i)) := by
  rw [execute_tests, if_pos h]
  have hspec := execLoop_spec e.outcomeAt cmds 0
  refine ⟨hspec.1, ?_⟩
  intro i cmd hc
  simpa using hspec.2 i cmd hc

/-- C8 witness: a two-command test case whose first command raises a
forced transport error still records a Result for the second command. -/
theorem c8_fault_isolation_witness :
    execEnvW.connected = true ∧
    (execute_tests execEnvW cmdsW).1.length = 2 ∧
    (execute_tests execEnvW cmdsW).1[1]?
      = some ⟨"GET", ["k"], .res .pnone⟩ := by
  have h := c8_fault_isolation execEnvW cmdsW rfl
  refine ⟨rfl, h.1, ?_⟩
  have h2 := h.2 1 ("GET", ["k"]) (by decide)
  exact h2

end DfAfl
